import Mathlib

/-!
Shallow embedding of the computational core of `src/dashboard.py`:
the risk scorer (`calculate_risk_score`, `get_risk_level`) and the
rolling-window alert rule at the bottom of the script.

Timestamps are naive date-times at minute resolution, modelled as the
number of minutes since an arbitrary epoch midnight; the hour-of-day is
derived from it exactly as a naive datetime's `.hour` field would be.
The pandas call `g["event"].rolling(f"{window_min}min").count()` uses a
trailing window that is closed on the right and open on the left, and for
row `i` it ranges over the rows `j ≤ i` whose timestamp lies in
`(t_i - window, t_i]`; `countInWindow` reproduces that count over the
prefix of the (timestamp-sorted) group ending at row `i`.
-/

namespace SocDashboard

/-- A naive timestamp: minutes since an arbitrary epoch midnight. -/
structure Timestamp where
  minutes : Nat
deriving DecidableEq, Repr

/-- The `.hour` field of the naive timestamp (hour of day, 0..23). -/
def Timestamp.hour (t : Timestamp) : Nat :=
  t.minutes / 60 % 24

/-- `base_scores.get(event, 10)` from `calculate_risk_score`. -/
def base_scores (event : String) : Nat :=
  if event = "root_detected" then 30
  else if event = "hooking_attempt" then 25
  else if event = "emulator_detected" then 20
  else if event = "debugger_attached" then 15
  else 10

/-- `high_risk_countries = ["USA", "Germany"]`. -/
def high_risk_countries : List String := ["USA", "Germany"]

/-- `calculate_risk_score(event, country, timestamp)` from `dashboard.py`. -/
def calculate_risk_score (event country : String) (timestamp : Timestamp) : Nat :=
  let score := base_scores event
  let score := if country ∈ high_risk_countries then score + 10 else score
  let hour := timestamp.hour
  let score := if hour < 6 ∨ 22 < hour then score + 5 else score
  min score 100

/-- `get_risk_level(score)` from `dashboard.py`. -/
def get_risk_level (score : Nat) : String :=
  if 76 ≤ score then "Critical"
  else if 51 ≤ score then "High"
  else if 26 ≤ score then "Medium"
  else "Low"

/-- An input event row, restricted to the columns the alert rule reads. -/
structure Event where
  timestamp : Timestamp
  event : String
  country : String
  device : String
deriving DecidableEq, Repr

/-- The `scope` radio button: "Per country" or "Per device". -/
inductive Scope where
  | perCountry
  | perDevice
deriving DecidableEq, Repr

/-- `group_key = "country" if scope == "Per country" else "device"`. -/
def group_key : Scope → String
  | .perCountry => "country"
  | .perDevice => "device"

/-- The grouping column's value for a row. -/
def keyOf (scope : Scope) (e : Event) : String :=
  match scope with
  | .perCountry => e.country
  | .perDevice => e.device

/-- The rule description string `f"Emulator≥{threshold} in {window_min} min"`. -/
def rule_string (threshold window_min : Nat) : String :=
  "Emulator≥" ++ toString threshold ++ " in " ++ toString window_min ++ " min"

/-- One emitted alert record. The python dict stores the group key value
under a dynamic field named after the grouping column; here it is the
fixed field `key`. -/
structure Alert where
  time : Timestamp
  scope : String
  key : String
  rule : String
deriving DecidableEq, Repr

/-- The pandas rolling count at anchor time `t` over the prefix `rows` of a
group: rows whose timestamp lies in the right-closed trailing window
`(t - window_min, t]`. -/
def countInWindow (window_min : Nat) (rows : List Event) (t : Timestamp) : Nat :=
  (rows.filter (fun e =>
    decide (e.timestamp.minutes ≤ t.minutes ∧
      t.minutes < e.timestamp.minutes + window_min))).length

/-- Walk a group's rows in order, keeping the prefix seen so far, and emit
the timestamps whose rolling count reaches the threshold (the rows of
`hits = counts[counts >= threshold]`). -/
def rollingHitsAux (window_min threshold : Nat) :
    List Event → List Event → List Timestamp
  | _, [] => []
  | seen, e :: rest =>
    let seen2 := seen ++ [e]
    if threshold ≤ countInWindow window_min seen2 e.timestamp then
      e.timestamp :: rollingHitsAux window_min threshold seen2 rest
    else
      rollingHitsAux window_min threshold seen2 rest

/-- Timestamps of the qualifying rows of one group. -/
def rollingHits (window_min threshold : Nat) (g : List Event) : List Timestamp :=
  rollingHitsAux window_min threshold [] g

/-- The alert records appended for one group (`for t in hits.index`). -/
def group_alerts (window_min threshold : Nat) (scope : Scope) (k : String)
    (g : List Event) : List Alert :=
  (rollingHits window_min threshold g).map (fun t =>
    { time := t, scope := group_key scope, key := k,
      rule := rule_string threshold window_min })

/-- Stable sort of rows by timestamp (`base.sort_values("timestamp")`). -/
def sortByTs (l : List Event) : List Event :=
  l.insertionSort (fun a b => a.timestamp.minutes ≤ b.timestamp.minutes)

/-- Sorted group keys: pandas `groupby` iterates groups in sorted key order. -/
def sortKeys (l : List String) : List String :=
  l.insertionSort (fun a b => a ≤ b)

/-- Concatenation of the per-group alert lists. -/
def concatMap (f : String → List Alert) : List String → List Alert
  | [] => []
  | k :: ks => f k ++ concatMap f ks

/-- The whole alert rule: restrict the filtered rows to the trigger event
type `emulator_detected`, sort by timestamp, group by the scope's key and
collect each group's rolling-window alerts. An empty trigger-filtered
input yields no groups, hence no alerts (the `base.empty` branch). -/
def detectAlerts (filtered : List Event) (scope : Scope)
    (window_min threshold : Nat) : List Alert :=
  let base := sortByTs (filtered.filter (fun e => decide (e.event = "emulator_detected")))
  let keys := sortKeys ((base.map (keyOf scope)).dedup)
  concatMap (fun k =>
    group_alerts window_min threshold scope k
      (base.filter (fun e => decide (keyOf scope e = k)))) keys

/-- The base-score table as the spec words it: a five-way mapping with a
default of 10 for any other string. -/
def base_scores_spec : String → Nat
  | "root_detected" => 30
  | "hooking_attempt" => 25
  | "emulator_detected" => 20
  | "debugger_attached" => 15
  | _ => 10

/-- The risk-score formula as the spec words it: base score, plus 10 for a
high-risk country, plus 5 off-hours, capped at 100. -/
def risk_score_spec (event country : String) (hour : Nat) : Nat :=
  min (base_scores_spec event +
    (if country = "USA" ∨ country = "Germany" then 10 else 0) +
    (if hour < 6 ∨ 22 < hour then 5 else 0)) 100

end SocDashboard

namespace SocDashboard

lemma base_scores_eq_spec (e : String) : base_scores e = base_scores_spec e := by
  unfold base_scores base_scores_spec
  split_ifs with h1 h2 h3 h4
  · subst h1; rfl
  · subst h2; rfl
  · subst h3; rfl
  · subst h4; rfl
  · split <;> simp_all

lemma base_scores_ge_ten (e : String) : 10 ≤ base_scores e := by
  unfold base_scores; split_ifs <;> omega

lemma base_scores_le_thirty (e : String) : base_scores e ≤ 30 := by
  unfold base_scores; split_ifs <;> omega

lemma sortByTs_perm (l : List Event) : List.Perm (sortByTs l) l :=
  List.perm_insertionSort _ l

lemma sortKeys_perm (l : List String) : List.Perm (sortKeys l) l :=
  List.perm_insertionSort _ l

lemma concatMap_length (f : String → List Alert) (ks : List String) :
    (concatMap f ks).length = (ks.map (fun k => (f k).length)).sum := by
  induction ks with
  | nil => rfl
  | cons k ks ih => simp [concatMap, List.length_append, ih]

lemma sortByTs_replicate (n : Nat) (e : Event) :
    sortByTs (List.replicate n e) = List.replicate n e := by
  have hp := sortByTs_perm (List.replicate n e)
  refine List.eq_replicate_iff.mpr ⟨?_, ?_⟩
  · rw [hp.length_eq, List.length_replicate]
  · exact fun b hb => List.eq_of_mem_replicate (hp.mem_iff.mp hb)

lemma dedup_replicate (n : Nat) (hn : 1 ≤ n) (a : String) :
    (List.replicate n a).dedup = [a] := by
  induction n with
  | zero => omega
  | succ m ih =>
    rcases Nat.eq_zero_or_pos m with h0 | hpos
    · subst h0
      simp
    · rw [List.replicate_succ,
        List.dedup_cons_of_mem (List.mem_replicate.mpr ⟨by omega, rfl⟩)]
      exact ih hpos

lemma countInWindow_replicate (W : Nat) (hW : 1 ≤ W) (m : Nat) (e : Event) :
    countInWindow W (List.replicate m e) e.timestamp = m := by
  unfold countInWindow
  have h : ∀ a ∈ List.replicate m e,
      (fun x => decide (x.timestamp.minutes ≤ e.timestamp.minutes ∧
        e.timestamp.minutes < x.timestamp.minutes + W)) a = true := by
    intro a ha
    rw [List.eq_of_mem_replicate ha]
    simp only [decide_eq_true_eq]
    exact ⟨Nat.le_refl _, by omega⟩
  rw [List.filter_eq_self.mpr h, List.length_replicate]

lemma rollingHitsAux_replicate (W thr : Nat) (hW : 1 ≤ W) (e : Event) :
    ∀ n m : Nat,
      rollingHitsAux W thr (List.replicate m e) (List.replicate n e) =
        List.replicate (min n (m + n + 1 - thr)) e.timestamp := by
  intro n
  induction n with
  | zero => intro m; simp [rollingHitsAux]
  | succ n ih =>
    intro m
    rw [List.replicate_succ]
    simp only [rollingHitsAux]
    rw [show List.replicate m e ++ [e] = List.replicate (m + 1) e from
      (List.replicate_succ' m e).symm]
    rw [countInWindow_replicate W hW (m + 1) e]
    by_cases h : thr ≤ m + 1
    · rw [if_pos h, ih (m + 1)]
      have h1 : min n (m + 1 + n + 1 - thr) = n := by omega
      have h2 : min (n + 1) (m + (n + 1) + 1 - thr) = n + 1 := by omega
      rw [h1, h2, List.replicate_succ]
    · rw [if_neg h, ih (m + 1)]
      have h1 : min n (m + 1 + n + 1 - thr) = min (n + 1) (m + (n + 1) + 1 - thr) := by
        omega
      rw [h1]

lemma rollingHitsAux_length_threshold_one (W : Nat) (hW : 1 ≤ W) :
    ∀ (l seen : List Event), (rollingHitsAux W 1 seen l).length = l.length := by
  intro l
  induction l with
  | nil => intro seen; rfl
  | cons e rest ih =>
    intro seen
    simp only [rollingHitsAux]
    have hmem : e ∈ (seen ++ [e]).filter (fun x =>
        decide (x.timestamp.minutes ≤ e.timestamp.minutes ∧
          e.timestamp.minutes < x.timestamp.minutes + W)) := by
      refine List.mem_filter.mpr ⟨by simp, ?_⟩
      simp only [decide_eq_true_eq]
      exact ⟨Nat.le_refl _, by omega⟩
    have hc : 1 ≤ countInWindow W (seen ++ [e]) e.timestamp :=
      List.length_pos.mpr (List.ne_nil_of_mem hmem)
    rw [if_pos hc]
    simp [ih]

end SocDashboard

namespace SocDashboard

lemma map_ite_not_mem (ks : List String) (a : String) (g : String → Nat)
    (ha : a ∉ ks) :
    ks.map (fun k => if a = k then g k + 1 else g k) = ks.map g := by
  induction ks with
  | nil => rfl
  | cons k ks ih =>
    have hne : a ≠ k := fun he => ha (he ▸ List.mem_cons_self k ks)
    have hnm : a ∉ ks := fun hm => ha (List.mem_cons_of_mem _ hm)
    simp only [List.map_cons, if_neg hne, ih hnm]

lemma sum_map_ite_add (ks : List String) (a : String) (g : String → Nat)
    (hnd : ks.Nodup) (ha : a ∈ ks) :
    (ks.map (fun k => if a = k then g k + 1 else g k)).sum =
      (ks.map g).sum + 1 := by
  induction ks with
  | nil => cases ha
  | cons k ks ih =>
    rcases List.nodup_cons.mp hnd with ⟨hk, hnd2⟩
    rcases List.mem_cons.mp ha with h | h
    · subst h
      simp only [List.map_cons, List.sum_cons, eq_self_iff_true, if_true,
        map_ite_not_mem ks a g hk]
      omega
    · have hne : a ≠ k := fun he => hk (he ▸ h)
      simp only [List.map_cons, List.sum_cons, if_neg hne, ih hnd2 h]
      omega

lemma filter_key_partition (key : Event → String) (l : List Event)
    (ks : List String) (hnd : ks.Nodup) (hcov : ∀ e ∈ l, key e ∈ ks) :
    (ks.map (fun k => (l.filter (fun e => decide (key e = k))).length)).sum =
      l.length := by
  induction l with
  | nil => simp
  | cons e l ih =>
    have hcov2 : ∀ x ∈ l, key x ∈ ks := fun x hx => hcov x (List.mem_cons_of_mem _ hx)
    have he : key e ∈ ks := hcov e (List.mem_cons_self _ _)
    simp only [List.filter_cons, decide_eq_true_eq, apply_ite List.length,
      List.length_cons]
    rw [sum_map_ite_add ks (key e) _ hnd he, ih hcov2]

end SocDashboard

namespace SocDashboard

/-- C1: with window 5 minutes and group-by device, three `emulator_detected`
events for device A at 10:00, 10:02 and 10:04 trigger exactly one alert, at
10:04 for device A, when the threshold is 3, and no alert when it is 4; the
rolling count at an anchor `t` takes the group's events with timestamp in
`(t - window, t]`, so the count at 10:04 is 3, while an event at 09:59 (on
the open left boundary) is not counted. -/
theorem claim_C1 :
    detectAlerts
      [⟨⟨600⟩, "emulator_detected", "France", "A"⟩,
       ⟨⟨602⟩, "emulator_detected", "France", "A"⟩,
       ⟨⟨604⟩, "emulator_detected", "France", "A"⟩] Scope.perDevice 5 3 =
      [⟨⟨604⟩, "device", "A", rule_string 3 5⟩] ∧
    detectAlerts
      [⟨⟨600⟩, "emulator_detected", "France", "A"⟩,
       ⟨⟨602⟩, "emulator_detected", "France", "A"⟩,
       ⟨⟨604⟩, "emulator_detected", "France", "A"⟩] Scope.perDevice 5 4 = [] ∧
    countInWindow 5
      [⟨⟨600⟩, "emulator_detected", "France", "A"⟩,
       ⟨⟨602⟩, "emulator_detected", "France", "A"⟩,
       ⟨⟨604⟩, "emulator_detected", "France", "A"⟩] ⟨604⟩ = 3 ∧
    countInWindow 5
      [⟨⟨599⟩, "emulator_detected", "France", "A"⟩,
       ⟨⟨602⟩, "emulator_detected", "France", "A"⟩,
       ⟨⟨604⟩, "emulator_detected", "France", "A"⟩] ⟨604⟩ = 2 := by
  decide

/-- C2: for every event type, country and timestamp, the risk score is the
base score (30/25/20/15 with default 10), plus 10 for a country in
{USA, Germany}, plus 5 when the hour-of-day is below 6 or above 22, with the
total capped at 100. -/
theorem claim_C2 (e c : String) (t : Timestamp) :
    calculate_risk_score e c t = risk_score_spec e c t.hour := by
  simp only [calculate_risk_score, risk_score_spec, base_scores_eq_spec,
    high_risk_countries, List.mem_cons, List.mem_singleton, List.not_mem_nil,
    or_false]
  split_ifs <;> omega

/-- C3: the risk-level mapping is the exact four-tier partition of [0, 100]
with inclusive boundaries: 0–25 Low, 26–50 Medium, 51–75 High, 76–100
Critical. -/
theorem claim_C3 (s : Nat) (h : s ≤ 100) :
    (get_risk_level s = "Low" ↔ s ≤ 25) ∧
    (get_risk_level s = "Medium" ↔ 26 ≤ s ∧ s ≤ 50) ∧
    (get_risk_level s = "High" ↔ 51 ≤ s ∧ s ≤ 75) ∧
    (get_risk_level s = "Critical" ↔ 76 ≤ s ∧ s ≤ 100) := by
  unfold get_risk_level
  split_ifs with h1 h2 h3 <;> refine ⟨?_, ?_, ?_, ?_⟩ <;> simp <;> omega

/-- C3 witness: the partition instantiated at the boundary score 26. -/
theorem claim_C3_witness :
    (get_risk_level 26 = "Low" ↔ 26 ≤ 25) ∧
    (get_risk_level 26 = "Medium" ↔ 26 ≤ 26 ∧ 26 ≤ 50) ∧
    (get_risk_level 26 = "High" ↔ 51 ≤ 26 ∧ 26 ≤ 75) ∧
    (get_risk_level 26 = "Critical" ↔ 76 ≤ 26 ∧ 26 ≤ 100) :=
  claim_C3 26 (by decide)

/-- C5: for every event type, country and timestamp, the risk score lies
between 10 and 100. -/
theorem claim_C5 (e c : String) (t : Timestamp) :
    10 ≤ calculate_risk_score e c t ∧ calculate_risk_score e c t ≤ 100 := by
  have h10 := base_scores_ge_ten e
  simp only [calculate_risk_score]
  split_ifs <;> omega

end SocDashboard

namespace SocDashboard

/-- C6: with event type and timestamp fixed, moving the country from outside
to inside the high-risk set raises the score by exactly 10 unless the result
is clamped at 100; with event type and country fixed, moving the hour from
in-hours to off-hours raises it by exactly 5 unless clamped at 100. -/
theorem claim_C6 :
    (∀ (e : String) (t : Timestamp) (c1 c2 : String),
      c1 ∈ high_risk_countries → c2 ∉ high_risk_countries →
      calculate_risk_score e c1 t = calculate_risk_score e c2 t + 10 ∨
        calculate_risk_score e c1 t = 100) ∧
    (∀ (e c : String) (t1 t2 : Timestamp),
      (t1.hour < 6 ∨ 22 < t1.hour) → ¬(t2.hour < 6 ∨ 22 < t2.hour) →
      calculate_risk_score e c t1 = calculate_risk_score e c t2 + 5 ∨
        calculate_risk_score e c t1 = 100) := by
  constructor
  · intro e t c1 c2 h1 h2
    have h30 := base_scores_le_thirty e
    simp only [calculate_risk_score, if_pos h1, if_neg h2]
    split_ifs <;> omega
  · intro e c t1 t2 h1 h2
    have h30 := base_scores_le_thirty e
    simp only [calculate_risk_score, if_pos h1, if_neg h2]
    split_ifs <;> omega

/-- C6 witness: both monotonicity steps at concrete inputs — USA versus
France for `root_detected` at 10:00, and hour 23 versus hour 10 for
`root_detected` in France. -/
theorem claim_C6_witness :
    (calculate_risk_score "root_detected" "USA" ⟨600⟩ =
        calculate_risk_score "root_detected" "France" ⟨600⟩ + 10 ∨
      calculate_risk_score "root_detected" "USA" ⟨600⟩ = 100) ∧
    (calculate_risk_score "root_detected" "France" ⟨1380⟩ =
        calculate_risk_score "root_detected" "France" ⟨600⟩ + 5 ∨
      calculate_risk_score "root_detected" "France" ⟨1380⟩ = 100) :=
  ⟨claim_C6.1 "root_detected" ⟨600⟩ "USA" "France" (by decide) (by decide),
   claim_C6.2 "root_detected" "France" ⟨1380⟩ ⟨600⟩ (by decide) (by decide)⟩

/-- C9: under the demo constants the risk score never exceeds 45, so the
clamp at 100 is inactive and the risk level of every scored event is Low or
Medium — High and Critical are unreachable. -/
theorem claim_C9 (e c : String) (t : Timestamp) :
    calculate_risk_score e c t ≤ 45 ∧
    (get_risk_level (calculate_risk_score e c t) = "Low" ∨
      get_risk_level (calculate_risk_score e c t) = "Medium") := by
  have h30 := base_scores_le_thirty e
  have hle : calculate_risk_score e c t ≤ 45 := by
    simp only [calculate_risk_score]
    split_ifs <;> omega
  refine ⟨hle, ?_⟩
  unfold get_risk_level
  split_ifs with h1 h2 h3
  · exfalso; omega
  · exfalso; omega
  · right; rfl
  · left; rfl

/-- C10: the risk score reads the timestamp only through its hour-of-day:
two timestamps with the same hour field yield the same score for every
event type and country. -/
theorem claim_C10 (e c : String) (t1 t2 : Timestamp) (h : t1.hour = t2.hour) :
    calculate_risk_score e c t1 = calculate_risk_score e c t2 := by
  simp only [calculate_risk_score, h]

/-- C10 witness: minute 600 of day 0 and minute 2070 of day 1 share hour 10
and receive the same score. -/
theorem claim_C10_witness :
    Timestamp.hour ⟨600⟩ = Timestamp.hour ⟨2070⟩ ∧
    calculate_risk_score "emulator_detected" "Germany" ⟨600⟩ =
      calculate_risk_score "emulator_detected" "Germany" ⟨2070⟩ :=
  ⟨by decide,
   claim_C10 "emulator_detected" "Germany" ⟨600⟩ ⟨2070⟩ (by decide)⟩

/-- C8: when the input holds no `emulator_detected` event, the alert rule
yields the empty alert list, for every scope, window and threshold. -/
theorem claim_C8 (events : List Event) (scope : Scope) (W thr : Nat)
    (h : ∀ e ∈ events, e.event ≠ "emulator_detected") :
    detectAlerts events scope W thr = [] := by
  have hnil : events.filter (fun e => decide (e.event = "emulator_detected")) = [] := by
    refine List.filter_eq_nil_iff.mpr ?_
    intro a ha
    simp [h a ha]
  simp [detectAlerts, hnil, sortByTs, sortKeys, concatMap]

/-- C8 witness: a dataset holding a single `root_detected` event produces no
alerts. -/
theorem claim_C8_witness :
    detectAlerts [⟨⟨0⟩, "root_detected", "USA", "d1"⟩] Scope.perDevice 5 10 = [] :=
  claim_C8 [⟨⟨0⟩, "root_detected", "USA", "d1"⟩] Scope.perDevice 5 10 (by decide)

end SocDashboard

namespace SocDashboard

/-- C4: a burst of N trigger events sharing one timestamp, run with any
window of at least one minute and threshold N, yields exactly one alert for
the burst's group, at the shared instant — the rolling count only reaches N
at the burst's last row. -/
theorem claim_C4 (W N : Nat) (hW : 1 ≤ W) (hN : 1 ≤ N) (t : Timestamp)
    (c d : String) (scope : Scope) :
    detectAlerts (List.replicate N ⟨t, "emulator_detected", c, d⟩) scope W N =
      [⟨t, group_key scope, keyOf scope ⟨t, "emulator_detected", c, d⟩,
        rule_string N W⟩] := by
  have hfil : (List.replicate N (⟨t, "emulator_detected", c, d⟩ : Event)).filter
      (fun e => decide (e.event = "emulator_detected")) =
      List.replicate N ⟨t, "emulator_detected", c, d⟩ := by
    refine List.filter_eq_self.mpr ?_
    intro a ha
    rw [List.eq_of_mem_replicate ha]
    simp
  simp only [detectAlerts, hfil, sortByTs_replicate, List.map_replicate,
    dedup_replicate N hN]
  have hkeys : sortKeys [keyOf scope ⟨t, "emulator_detected", c, d⟩] =
      [keyOf scope ⟨t, "emulator_detected", c, d⟩] := rfl
  rw [hkeys]
  have hfil2 : (List.replicate N (⟨t, "emulator_detected", c, d⟩ : Event)).filter
      (fun e => decide (keyOf scope e = keyOf scope ⟨t, "emulator_detected", c, d⟩)) =
      List.replicate N ⟨t, "emulator_detected", c, d⟩ := by
    refine List.filter_eq_self.mpr ?_
    intro a ha
    rw [List.eq_of_mem_replicate ha]
    simp
  simp only [concatMap, hfil2, List.append_nil, group_alerts, rollingHits]
  rw [show ([] : List Event) = List.replicate 0 ⟨t, "emulator_detected", c, d⟩ from rfl,
    rollingHitsAux_replicate W N hW _ N 0]
  have hone : min N (0 + N + 1 - N) = 1 := by omega
  rw [hone]
  rfl

/-- C4 witness: a burst of three events at 10:00 for device A with window 5
and threshold 3 yields the single alert at 10:00. -/
theorem claim_C4_witness :
    detectAlerts (List.replicate 3 ⟨⟨600⟩, "emulator_detected", "France", "A"⟩)
      Scope.perDevice 5 3 =
      [⟨⟨600⟩, group_key Scope.perDevice,
        keyOf Scope.perDevice ⟨⟨600⟩, "emulator_detected", "France", "A"⟩,
        rule_string 3 5⟩] :=
  claim_C4 5 3 (by decide) (by decide) ⟨600⟩ "France" "A" Scope.perDevice

/-- C7: with threshold 1 and any window of at least one minute, every
non-empty sequence of trigger events yields exactly one alert per input
event, for either grouping scope. -/
theorem claim_C7 (events : List Event) (scope : Scope) (W : Nat)
    (hne : events ≠ []) (hW : 1 ≤ W)
    (htrig : ∀ e ∈ events, e.event = "emulator_detected") :
    (detectAlerts events scope W 1).length = events.length := by
  have hfil : events.filter (fun e => decide (e.event = "emulator_detected")) = events := by
    refine List.filter_eq_self.mpr ?_
    intro a ha
    simp [htrig a ha]
  simp only [detectAlerts, hfil]
  have hperm := sortByTs_perm events
  have hnodup : (sortKeys (((sortByTs events).map (keyOf scope)).dedup)).Nodup :=
    ((sortKeys_perm _).nodup_iff).mpr (List.nodup_dedup _)
  have hcov : ∀ e ∈ sortByTs events,
      keyOf scope e ∈ sortKeys (((sortByTs events).map (keyOf scope)).dedup) := by
    intro e he
    exact ((sortKeys_perm _).mem_iff).mpr
      (List.mem_dedup.mpr (List.mem_map_of_mem _ he))
  rw [concatMap_length]
  have hlen : ∀ k, (group_alerts W 1 scope k
      ((sortByTs events).filter (fun e => decide (keyOf scope e = k)))).length =
      ((sortByTs events).filter (fun e => decide (keyOf scope e = k))).length := by
    intro k
    simp only [group_alerts, List.length_map, rollingHits]
    exact rollingHitsAux_length_threshold_one W hW _ []
  simp only [hlen]
  rw [filter_key_partition (keyOf scope) (sortByTs events) _ hnodup hcov]
  exact hperm.length_eq

/-- C7 witness: a single trigger event with window 1, threshold 1, grouped
per country, yields exactly one alert. -/
theorem claim_C7_witness :
    (detectAlerts [⟨⟨0⟩, "emulator_detected", "USA", "d1"⟩]
      Scope.perCountry 1 1).length = 1 :=
  claim_C7 [⟨⟨0⟩, "emulator_detected", "USA", "d1"⟩] Scope.perCountry 1
    (by decide) (by decide) (by decide)

end SocDashboard
